import Mathlib

/-!
Verification of the menu-rs terminal launcher (src/main.rs) against its
natural-language specification.  The Rust program is shallowly embedded:
strings are modelled as `List Char`, `usize` arithmetic that can wrap is
modelled explicitly modulo `2 ^ 64` (release-build wrapping semantics),
fallible operations return `Except`, and the interactive run loop is a
function over an explicit list of input events with a fuel parameter
bounding nested submenu depth.  Terminal-mode side effects are modelled as
an operation trace acting on an explicit terminal-mode state.
-/

/-- Error kinds of std::io::Error that the program distinguishes
(NotFound is produced by expand_tilde; everything else is collapsed). -/
inductive ErrKind where
  | notFound
  | other
deriving Repr, DecidableEq

/-- Model of std::io::Error: a kind plus a display message. -/
structure IoErr where
  kind : ErrKind
  msg : List Char
deriving Repr, DecidableEq

/-- Decidable equality for `Except`, used to evaluate the models on
concrete inputs. -/
instance instDecEqExcept (ε α : Type) [DecidableEq ε] [DecidableEq α] :
    DecidableEq (Except ε α) := fun x y =>
  match x, y with
  | .error e1, .error e2 => decidable_of_iff (e1 = e2) (by simp)
  | .error _, .ok _ => .isFalse (by simp)
  | .ok _, .error _ => .isFalse (by simp)
  | .ok a1, .ok a2 => decidable_of_iff (a1 = a2) (by simp)

/-- Whitespace test used by Rust str::trim (char::is_whitespace), modelled on
the Latin-1 range of the Unicode White_Space property; higher code points
(U+1680, U+2000.., U+3000, ...) are not modelled. -/
def rustWs (c : Char) : Bool :=
  c == ' ' || c == '\t' || c == '\n' || c == '\r' ||
    c == Char.ofNat 11 || c == Char.ofNat 12 || c == Char.ofNat 133 || c == Char.ofNat 160

/-- Model of Rust str::trim: drop whitespace from both ends. -/
def rustTrim (s : List Char) : List Char :=
  ((s.dropWhile rustWs).reverse.dropWhile rustWs).reverse

/-- Model of Rust line.split(sep=comma).collect::<Vec<_>>(): split at every
comma, keeping empty fields; the empty string yields one empty field. -/
def splitComma : List Char → List (List Char)
  | [] => [[]]
  | c :: rest =>
    if c = ',' then [] :: splitComma rest
    else
      match splitComma rest with
      | [] => [[c]]
      | p :: ps => (c :: p) :: ps

/-- Inverse of `splitComma` on comma-free fields: rejoin with commas. -/
def joinComma : List (List Char) → List Char
  | [] => []
  | [p] => p
  | p :: ps => p ++ ',' :: joinComma ps

/-- Word separators of the shlex crate (space, tab, newline). -/
def shlexWs (c : Char) : Bool :=
  c == ' ' || c == '\t' || c == '\n'

/-- Lexer modes of the shlex word splitter: between words, inside a comment,
inside a bare word, inside single or double quotes, or directly after a
backslash (in a bare word or inside double quotes). -/
inductive SxMode where
  | gap | comment | word | single | double | escWord | escDouble
deriving Repr, DecidableEq

/-- Model of the shlex crate word splitter (shlex::split) as a character
state machine: blanks separate words; a hash between words starts a
comment running to the end of the line; single quotes are literal runs;
double quotes allow backslash escapes of dollar, backtick, double quote and
backslash (a backslash before any other character is kept literally, and a
backslash-newline is a line continuation); a bare backslash escapes the
next character.  End of input inside a quoted run or directly after a
backslash is a tokenization error, yielding `none`.  `cur` is the word
being accumulated and `acc` the finished words in reverse order. -/
def shlexStep : SxMode → List Char → List (List Char) → List Char → Option (List (List Char))
  | .gap, _, acc, [] => some acc.reverse
  | .comment, _, acc, [] => some acc.reverse
  | .word, cur, acc, [] => some ((cur :: acc).reverse)
  | .single, _, _, [] => none
  | .double, _, _, [] => none
  | .escWord, _, _, [] => none
  | .escDouble, _, _, [] => none
  | .gap, _, acc, c :: rest =>
    if shlexWs c then shlexStep .gap [] acc rest
    else if c = '#' then shlexStep .comment [] acc rest
    else if c = Char.ofNat 39 then shlexStep .single [] acc rest
    else if c = '"' then shlexStep .double [] acc rest
    else if c = '\\' then shlexStep .escWord [] acc rest
    else shlexStep .word [c] acc rest
  | .comment, _, acc, c :: rest =>
    if c = '\n' then shlexStep .gap [] acc rest
    else shlexStep .comment [] acc rest
  | .word, cur, acc, c :: rest =>
    if shlexWs c then shlexStep .gap [] (cur :: acc) rest
    else if c = Char.ofNat 39 then shlexStep .single cur acc rest
    else if c = '"' then shlexStep .double cur acc rest
    else if c = '\\' then shlexStep .escWord cur acc rest
    else shlexStep .word (cur ++ [c]) acc rest
  | .single, cur, acc, c :: rest =>
    if c = Char.ofNat 39 then shlexStep .word cur acc rest
    else shlexStep .single (cur ++ [c]) acc rest
  | .double, cur, acc, c :: rest =>
    if c = '"' then shlexStep .word cur acc rest
    else if c = '\\' then shlexStep .escDouble cur acc rest
    else shlexStep .double (cur ++ [c]) acc rest
  | .escWord, cur, acc, c :: rest =>
    if c = '\n' then shlexStep .word cur acc rest
    else shlexStep .word (cur ++ [c]) acc rest
  | .escDouble, cur, acc, c :: rest =>
    if c = '$' ∨ c = Char.ofNat 96 ∨ c = '"' ∨ c = '\\' then
      shlexStep .double (cur ++ [c]) acc rest
    else if c = '\n' then shlexStep .double cur acc rest
    else shlexStep .double (cur ++ ['\\', c]) acc rest

/-- Model of shlex::split: run the word splitter on the whole input;
`none` models the had_error result (unbalanced quote, trailing backslash). -/
def shlexSplit (s : List Char) : Option (List (List Char)) :=
  shlexStep .gap [] [] s

/-- Model of struct MenuItem (main.rs lines 14-19). -/
structure MenuItem where
  name : List Char
  working_dir : List Char
  command : List (List Char)
deriving Repr, DecidableEq

/-- Model of MenuItem::from_csv_line (main.rs lines 50-69): split the line
on commas; with fewer than 3 fields return none; otherwise the first field
is the name, the second the working directory, and the third (trimmed) is
empty for a submenu entry or shlex-tokenized into the command, with a
tokenization failure propagated as none by the question-mark operator. -/
def MenuItem.from_csv_line (line : List Char) : Option MenuItem :=
  match splitComma line with
  | p0 :: p1 :: p2 :: _ =>
    if rustTrim p2 = [] then some ⟨p0, p1, []⟩
    else (shlexSplit (rustTrim p2)).map fun cmd => ⟨p0, p1, cmd⟩
  | _ => none

/-- Model of MenuItem::is_submenu (main.rs lines 71-73). -/
def MenuItem.is_submenu (item : MenuItem) : Bool :=
  item.command.isEmpty

/-- Model of struct Menu (main.rs lines 21-25).  `name.len()` is modelled as
the character count (the Rust byte count coincides on ASCII names). -/
structure Menu where
  items : List MenuItem
  selected : Nat
  max_length : Nat
deriving Repr, DecidableEq

/-- Model of Menu::new (main.rs lines 80-86). -/
def Menu.new : Menu := ⟨[], 0, 0⟩

/-- One iteration of the line loop of Menu::load_from_file (main.rs lines
101-106): lines that parse are appended in order and widen max_length;
lines that do not parse are skipped. -/
def load_step (menu : Menu) (line : List Char) : Menu :=
  match MenuItem.from_csv_line line with
  | some item =>
    { menu with
      max_length := max menu.max_length (item.name.length + 2),
      items := menu.items ++ [item] }
  | none => menu

/-- The pure core of Menu::load_from_file (main.rs lines 89-109), applied to
the list of lines read from the file. -/
def Menu.load_from_lines (lines : List (List Char)) : Menu :=
  lines.foldl load_step Menu.new

/-- The usize modulus: the program runs on a 64-bit target. -/
def USIZE : Nat := 2 ^ 64

/-- Wrapping usize subtraction (release-build Rust semantics): for operands
below `USIZE` this is two-complement wrapping, so `0 - 1` underflows to
`USIZE - 1`. -/
def usize_sub (a b : Nat) : Nat :=
  (a + (USIZE - b % USIZE)) % USIZE

/-- The KeyCode::Up arm of Menu::run (main.rs lines 236-238): decrement the
selection only when it is positive. -/
def Menu.move_up (m : Menu) : Menu :=
  if m.selected > 0 then { m with selected := m.selected - 1 } else m

/-- The KeyCode::Down arm of Menu::run (main.rs lines 239-241): increment
the selection when below `items.len() - 1`; the subtraction is unguarded
usize arithmetic and wraps when the item list is empty. -/
def Menu.move_down (m : Menu) : Menu :=
  if m.selected < usize_sub m.items.length 1 then { m with selected := m.selected + 1 } else m

/-- The dash count of the borders drawn by Menu::draw (main.rs lines 118 and
143): `max_length - 2` on unguarded usize arithmetic. -/
def Menu.top_border_dash_count (m : Menu) : Nat :=
  usize_sub m.max_length 2

/-- Model of Rust Path::join on string paths: an absolute right operand
replaces the base, otherwise it is appended after a separator (none added
when the base already ends in one or is empty). -/
def pathJoin (base p : List Char) : List Char :=
  if p.head? = some '/' then p
  else if base = [] ∨ base.getLast? = some '/' then base ++ p
  else base ++ '/' :: p

/-- Model of expand_tilde (main.rs lines 29-47).  `home` is the result of
dirs::home_dir().  A path starting with a tilde is expanded: exactly a
tilde gives the home directory, any other tilde path gives home joined with
the path minus its first two characters (the Rust code slices two bytes;
the models coincide on ASCII, and on a multibyte second character the Rust
slice would panic).  Without a home directory a tilde path is a NotFound
error; a path not starting with a tilde is returned unchanged. -/
def expand_tilde (home : Option (List Char)) (path : List Char) : Except IoErr (List Char) :=
  if path.head? = some '~' then
    match home with
    | some h => if path = ['~'] then .ok h else .ok (pathJoin h (path.drop 2))
    | none => .error ⟨.notFound, "Could not determine home directory".toList⟩
  else .ok path

/-- The MENU_FILE constant (main.rs line 27). -/
def MENU_FILE : List Char := "menu.csv".toList

/-- Outcome of Command::status(): a spawn error, or the child exited with or
without success. -/
inductive SpawnR where
  | spawnErr (e : IoErr)
  | exited (success : Bool)
deriving Repr, DecidableEq

/-- The ambient environment of a run: the home directory, the filesystem
(content of a file as its list of lines, or an open/read error) and the
result of spawning a program with arguments in a working directory. -/
structure Env where
  home : Option (List Char)
  fs : List Char → Except IoErr (List (List Char))
  spawn : List Char → List (List Char) → List Char → SpawnR

/-- Model of Menu::load_from_file (main.rs lines 89-109): tilde-expand the
path, open it (an open failure is annotated with the failing path), and
fold the parser over the lines. -/
def Menu.load_from_file (env : Env) (path : List Char) : Except IoErr Menu :=
  match expand_tilde env.home path with
  | .error e => .error e
  | .ok p =>
    match env.fs p with
    | .error e => .error ⟨e.kind, "Failed to open ".toList ++ p ++ ": ".toList ++ e.msg⟩
    | .ok lines => .ok (Menu.load_from_lines lines)

/-- Input events delivered by crossterm read(): the four handled keys and a
catch-all for every other event. -/
inductive Ev where
  | up | down | enter | esc | other
deriving Repr, DecidableEq

/-- The error message built by the map_err around Command::status in
Menu::run_selected (main.rs lines 184-186). -/
def failMsg (program cause : List Char) : List Char :=
  "Failed to execute \x27".toList ++ program ++ "\x27: ".toList ++ cause

/-- Model of Menu::run_selected (main.rs lines 153-222).  `subRun` is the
recursive submenu run (`submenu.run()`), `evs` the upcoming input events.
An out-of-range selection does nothing.  A submenu entry tilde-expands its
working directory (propagating the error), loads `<dir>/menu.csv` and runs
it to completion, or shows the blocking "Failed to load submenu" prompt
(consuming one keypress) when the load fails.  A leaf entry tilde-expands
the directory, spawns the command, and on a spawn error propagates the
error annotated with the program name and cause; on completion the
press-any-key pause consumes one keypress, and a non-success status shows
the blocking error prompt, consuming one more.  Terminal-mode side effects
are modelled separately; the model treats terminal writes as infallible. -/
def Menu.run_selected (env : Env)
    (subRun : Menu → List Ev → Except IoErr (Menu × List Ev))
    (m : Menu) (evs : List Ev) : Except IoErr (List Ev) :=
  match m.items[m.selected]? with
  | none => .ok evs
  | some item =>
    if item.command.isEmpty then
      match expand_tilde env.home item.working_dir with
      | .error e => .error e
      | .ok dir =>
        match Menu.load_from_file env (pathJoin dir MENU_FILE) with
        | .ok submenu =>
          match subRun submenu evs with
          | .error e => .error e
          | .ok (_, evs1) => .ok evs1
        | .error _ => .ok (evs.drop 1)
    else
      match item.command with
      | [] => .ok evs
      | program :: args =>
        match expand_tilde env.home item.working_dir with
        | .error e => .error e
        | .ok dir =>
          match env.spawn program args dir with
          | .spawnErr e => .error ⟨e.kind, failMsg program e.msg⟩
          | .exited success =>
            if success then .ok (evs.drop 1) else .ok ((evs.drop 1).drop 1)

/-- Model of Menu::run (main.rs lines 229-250): draw, read one event, and
either move the selection, run the selected item (propagating its error),
break on Escape, or ignore the event.  The real loop blocks forever on
read(); the model stops, returning the current menu and remaining events,
when the supplied event list is exhausted, and `fuel` bounds the nesting
depth of submenu recursion (each nested run is invoked with one unit
less). -/
def Menu.run (env : Env) : Nat → Menu → List Ev → Except IoErr (Menu × List Ev)
  | 0, m, evs => .ok (m, evs)
  | fuel + 1, m, evs =>
    match evs with
    | [] => .ok (m, [])
    | e :: rest =>
      match e with
      | .up => Menu.run env fuel m.move_up rest
      | .down => Menu.run env fuel m.move_down rest
      | .enter =>
        match Menu.run_selected env (fun m2 evs2 => Menu.run env fuel m2 evs2) m rest with
        | .error err => .error err
        | .ok rest1 => Menu.run env fuel m rest1
      | .esc => .ok (m, rest)
      | .other => Menu.run env fuel m rest

/-- Terminal mode state: raw input, hidden cursor, disabled line wrap.  The
process starts, and must end, with all three off (cooked mode, visible
cursor, wrap enabled). -/
structure TermState where
  raw : Bool
  cursorHidden : Bool
  wrapDisabled : Bool
deriving Repr, DecidableEq

/-- The normal (cooked, cursor visible, wrap enabled) terminal state. -/
def TermState.normal : TermState := ⟨false, false, false⟩

/-- Terminal-mode operations the program issues: the crossterm raw-mode
toggles, cursor Hide/Show, DisableLineWrap/EnableLineWrap, and `output` for
every write that leaves the mode unchanged (Clear, MoveTo, Print). -/
inductive TermOp where
  | enableRaw | disableRaw | hideCursor | showCursor | disableWrap | enableWrap | output
deriving Repr, DecidableEq

/-- Effect of one terminal operation on the mode state. -/
def applyOp (s : TermState) : TermOp → TermState
  | .enableRaw => { s with raw := true }
  | .disableRaw => { s with raw := false }
  | .hideCursor => { s with cursorHidden := true }
  | .showCursor => { s with cursorHidden := false }
  | .disableWrap => { s with wrapDisabled := true }
  | .enableWrap => { s with wrapDisabled := false }
  | .output => s

/-- Effect of a trace of terminal operations. -/
def applyOps (s : TermState) (ops : List TermOp) : TermState :=
  ops.foldl applyOp s

/-- The terminal setup at the top of main (main.rs lines 256-257):
enable_raw_mode, Hide, DisableLineWrap. -/
def setupOps : List TermOp := [.enableRaw, .hideCursor, .disableWrap]

/-- The unconditional cleanup after catch_unwind in main (main.rs lines
269-270): Show, EnableLineWrap, disable_raw_mode. -/
def cleanupOps : List TermOp := [.showCursor, .enableWrap, .disableRaw]

/-- The terminal-operation trace of one whole program run (main.rs lines
254-281): setup, then whatever operations the catch_unwind body issued
before returning normally, returning an error, or panicking, then the
unconditional cleanup. -/
def mainTrace (body : List TermOp) : List TermOp :=
  setupOps ++ body ++ cleanupOps

/-- Result of the catch_unwind body (main.rs lines 260-266): the closure
completed with an io::Result, or it panicked. -/
inductive BodyOutcome where
  | completed (r : Except IoErr Unit)
  | panicked
deriving DecidableEq

/-- Model of the catch_unwind closure in main (main.rs lines 260-266): load
MENU_FILE and run the menu, or, when the load fails, show the blocking
"Failed to load menu.csv" prompt; show_error returns Ok(()) when its
terminal I/O succeeds, which the model assumes. -/
def main_closure (env : Env) (fuel : Nat) (evs : List Ev) : Except IoErr Unit :=
  match Menu.load_from_file env MENU_FILE with
  | .ok menu => (Menu.run env fuel menu evs).map fun _ => ()
  | .error _ => .ok ()

/-- The final match of main (main.rs lines 275-280): a completed body
propagates its io::Result, a panic becomes the "Program panicked" error. -/
def main_result (b : BodyOutcome) : Except IoErr Unit :=
  match b with
  | .completed r => r
  | .panicked => .error ⟨.other, "Program panicked".toList⟩

/-- Process exit code: main returning Ok exits 0, main returning Err exits
1 (the Termination impl for Result). -/
def exit_code (r : Except IoErr Unit) : Nat :=
  match r with
  | .ok _ => 0
  | .error _ => 1

example : MenuItem.from_csv_line "Shell,.,bash".toList
    = some ⟨"Shell".toList, ".".toList, ["bash".toList]⟩ := by decide

example : MenuItem.from_csv_line "Nested,./sub,".toList
    = some ⟨"Nested".toList, "./sub".toList, []⟩ := by decide

example : MenuItem.from_csv_line "Bad,only-two-fields".toList = none := by decide

example : shlexSplit "vim \"file with space.txt\"".toList
    = some ["vim".toList, "file with space.txt".toList] := by decide

example : shlexSplit "vim \"unbalanced".toList = none := by decide

example : expand_tilde (some "/home/u".toList) "~/x".toList = .ok "/home/u/x".toList := by
  decide

example : expand_tilde (some "/home/u".toList) "~".toList = .ok "/home/u".toList := by
  decide

/-- For any property that holds at `n`, there is a unique earliest index
from which the property holds at every position up to `n`, and that index
is a genuine entry point (it is 0 or the property fails just before it).
Instantiated below with "the terminal state is normal after this prefix of
the trace" to express that the final restoration happens exactly once. -/
theorem exists_unique_least_entry (Q : Nat → Prop) (n : Nat) (hQn : Q n) :
    ∃! i, i ≤ n ∧ (∀ j, i ≤ j → j ≤ n → Q j) ∧ (i = 0 ∨ ¬ Q (i - 1)) := by
  classical
  have hSn : ∀ j, n ≤ j → j ≤ n → Q j := by
    intro j h1 h2
    have hj : j = n := le_antisymm h2 h1
    rw [hj]; exact hQn
  have hex : ∃ i, ∀ j, i ≤ j → j ≤ n → Q j := ⟨n, hSn⟩
  have hSi0 : ∀ j, Nat.find hex ≤ j → j ≤ n → Q j := Nat.find_spec hex
  have hle : Nat.find hex ≤ n := Nat.find_min' hex hSn
  refine ⟨Nat.find hex, ⟨hle, hSi0, ?_⟩, ?_⟩
  · rcases Nat.eq_zero_or_pos (Nat.find hex) with h0 | hpos
    · exact Or.inl h0
    · right
      intro hQ
      have hnS : ¬ ∀ j, Nat.find hex - 1 ≤ j → j ≤ n → Q j := Nat.find_min hex (by omega)
      apply hnS
      intro j hj1 hj2
      by_cases hji : Nat.find hex ≤ j
      · exact hSi0 j hji hj2
      · have hj : j = Nat.find hex - 1 := by omega
        rw [hj]; exact hQ
  · rintro i1 ⟨hle1, hS1, h01⟩
    have h1 : Nat.find hex ≤ i1 := Nat.find_min' hex hS1
    rcases eq_or_lt_of_le h1 with heq | hlt
    · exact heq.symm
    · rcases h01 with h01 | hQ1
      · omega
      · exact absurd (hSi0 (i1 - 1) (by omega) (by omega)) hQ1

/-- The cleanup block forces the normal terminal state whatever state the
body left behind. -/
theorem applyOps_cleanup (s : TermState) : applyOps s cleanupOps = TermState.normal := rfl

/-- C1: on every terminating run — normal Escape quit, startup load
failure, or a panic or error inside the run loop (the body trace ranges
over whatever terminal operations the catch_unwind body issued before
terminating either way) — the terminal ends in the normal state (cooked,
cursor visible, wrap enabled), and there is exactly one point of the trace
from which the state is normal through process exit, entered by an actual
restoring transition: the terminal is restored exactly once and no exit
path leaves raw or hidden-cursor mode. -/
theorem terminal_restored_exactly_once_on_every_exit (body : List TermOp) :
    applyOps TermState.normal (mainTrace body) = TermState.normal ∧
    ∃! i, i ≤ (mainTrace body).length ∧
      (∀ j, i ≤ j → j ≤ (mainTrace body).length →
        applyOps TermState.normal ((mainTrace body).take j) = TermState.normal) ∧
      (i = 0 ∨ applyOps TermState.normal ((mainTrace body).take (i - 1)) ≠ TermState.normal) := by
  have hfin : applyOps TermState.normal (mainTrace body) = TermState.normal := by
    simp only [mainTrace, applyOps, List.foldl_append]
    rfl
  refine ⟨hfin, ?_⟩
  have hQn : applyOps TermState.normal ((mainTrace body).take (mainTrace body).length)
      = TermState.normal := by
    rw [List.take_length]; exact hfin
  exact exists_unique_least_entry
    (fun j => applyOps TermState.normal ((mainTrace body).take j) = TermState.normal)
    (mainTrace body).length hQn

/-- C2 counterexample: when the startup load of the entry file fails (here:
the filesystem reports NotFound for menu.csv and terminal I/O succeeds),
main shows the blocking error prompt, show_error returns Ok(()), and the
process exits with code 0 — not the non-zero exit code the claim
requires. -/
theorem load_failure_exits_zero :
    exit_code (main_result (.completed (main_closure
      { home := none,
        fs := fun _ => .error ⟨.notFound, "No such file or directory (os error 2)".toList⟩,
        spawn := fun _ _ _ => .exited true }
      1 []))) = 0 := by decide

/-- C2 corrected: the process exits 0 on a normal quit AND on a startup
load failure (the failure is only reported through the blocking prompt,
whose success makes the closure return Ok); it exits non-zero (1) when the
body panicked or when an I/O error propagated out of the run loop. -/
theorem exit_codes_amended (env : Env) (fuel : Nat) (evs : List Ev) :
    exit_code (main_result .panicked) = 1 ∧
    (∀ e, Menu.load_from_file env MENU_FILE = .error e →
      exit_code (main_result (.completed (main_closure env fuel evs))) = 0) ∧
    (∀ m r, Menu.load_from_file env MENU_FILE = .ok m →
      Menu.run env fuel m evs = .ok r →
      exit_code (main_result (.completed (main_closure env fuel evs))) = 0) ∧
    (∀ m e, Menu.load_from_file env MENU_FILE = .ok m →
      Menu.run env fuel m evs = .error e →
      exit_code (main_result (.completed (main_closure env fuel evs))) = 1) := by
  refine ⟨rfl, ?_, ?_, ?_⟩
  · intro e he
    simp [main_closure, he, main_result, exit_code]
  · intro m r hm hr
    simp [main_closure, hm, hr, main_result, exit_code, Except.map]
  · intro m e hm hr
    simp [main_closure, hm, hr, main_result, exit_code, Except.map]

/-- Witness for the amended exit-code theorem at concrete runs: a failing
load exits 0, a normal Escape quit exits 0, a panic exits 1. -/
theorem exit_codes_amended_witness :
    exit_code (main_result (.completed (main_closure
      { home := none, fs := fun _ => .error ⟨.notFound, "nf".toList⟩,
        spawn := fun _ _ _ => .exited true } 1 []))) = 0 ∧
    exit_code (main_result (.completed (main_closure
      { home := none, fs := fun _ => .ok [],
        spawn := fun _ _ _ => .exited true } 1 [Ev.esc]))) = 0 ∧
    exit_code (main_result .panicked) = 1 :=
  ⟨(exit_codes_amended _ 1 []).2.1
      ⟨.notFound, "Failed to open ".toList ++ "menu.csv".toList ++ ": ".toList ++ "nf".toList⟩
      (by decide),
   (exit_codes_amended _ 1 [Ev.esc]).2.2.1 Menu.new (Menu.new, [])
      (by decide) (by decide),
   (exit_codes_amended
      { home := none, fs := fun _ => .ok [],
        spawn := fun _ _ _ => .exited true } 1 []).1⟩

/-- C3 counterexample: with a selected leaf item whose spawn fails (program
not found), the run loop does NOT continue: Menu::run returns the error
(further queued events are never processed) and, through main, the
application terminates with exit code 1.  This refutes the claim that
spawn failure is caught locally and the loop continues. -/
theorem spawn_failure_aborts_run :
    (Menu.run
      { home := none,
        fs := fun _ => .error ⟨.notFound, "nf".toList⟩,
        spawn := fun _ _ _ =>
          .spawnErr ⟨.notFound, "No such file or directory (os error 2)".toList⟩ }
      3
      ⟨[⟨"Shell".toList, ".".toList, ["frobnicate".toList]⟩], 0, 7⟩
      [Ev.enter, Ev.down, Ev.esc]
      = .error ⟨.notFound,
          failMsg "frobnicate".toList "No such file or directory (os error 2)".toList⟩) ∧
    exit_code (main_result (.completed
      ((Menu.run
        { home := none,
          fs := fun _ => .error ⟨.notFound, "nf".toList⟩,
          spawn := fun _ _ _ =>
            .spawnErr ⟨.notFound, "No such file or directory (os error 2)".toList⟩ }
        3
        ⟨[⟨"Shell".toList, ".".toList, ["frobnicate".toList]⟩], 0, 7⟩
        [Ev.enter, Ev.down, Ev.esc]).map fun _ => ()))) = 1 := by
  constructor
  · decide
  · decide

/-- C3 corrected: when the selected item is a leaf command and the spawn
fails, the error — annotated with the failing program name and the
underlying cause — propagates out of run_selected and out of the run loop
(the loop does not continue), and main then exits with a non-zero code
after restoring the terminal; there is no blocking error prompt on this
path. -/
theorem spawn_failure_propagates_and_kills_loop
    (env : Env) (m : Menu) (item : MenuItem) (program dir : List Char)
    (args : List (List Char)) (e : IoErr) (fuel : Nat) (evs : List Ev)
    (hitem : m.items[m.selected]? = some item)
    (hcmd : item.command = program :: args)
    (hdir : expand_tilde env.home item.working_dir = .ok dir)
    (hspawn : env.spawn program args dir = .spawnErr e) :
    Menu.run env (fuel + 1) m (Ev.enter :: evs)
      = .error ⟨e.kind, failMsg program e.msg⟩ ∧
    exit_code (main_result (.completed
      ((Menu.run env (fuel + 1) m (Ev.enter :: evs)).map fun _ => ()))) = 1 := by
  have hsel : Menu.run_selected env (fun m2 evs2 => Menu.run env fuel m2 evs2) m evs
      = .error ⟨e.kind, failMsg program e.msg⟩ := by
    simp only [Menu.run_selected, hitem, hcmd]
    simp [hdir, hspawn]
  have hrun : Menu.run env (fuel + 1) m (Ev.enter :: evs)
      = .error ⟨e.kind, failMsg program e.msg⟩ := by
    simp only [Menu.run, hsel]
  refine ⟨hrun, ?_⟩
  rw [hrun]
  rfl

/-- Witness for the spawn-failure propagation theorem at a concrete menu,
environment and event queue. -/
theorem spawn_failure_propagates_witness :
    ((⟨[⟨"Shell".toList, ".".toList, ["frobnicate".toList]⟩], 0, 7⟩ : Menu).items[
      (⟨[⟨"Shell".toList, ".".toList, ["frobnicate".toList]⟩], 0, 7⟩ : Menu).selected]?
      = some ⟨"Shell".toList, ".".toList, ["frobnicate".toList]⟩) ∧
    Menu.run
      { home := none,
        fs := fun _ => .error ⟨.notFound, "nf".toList⟩,
        spawn := fun _ _ _ =>
          .spawnErr ⟨.other, "Permission denied (os error 13)".toList⟩ }
      1
      ⟨[⟨"Shell".toList, ".".toList, ["frobnicate".toList]⟩], 0, 7⟩
      [Ev.enter]
      = .error ⟨.other,
          failMsg "frobnicate".toList "Permission denied (os error 13)".toList⟩ :=
  ⟨by decide,
   (spawn_failure_propagates_and_kills_loop
      { home := none,
        fs := fun _ => .error ⟨.notFound, "nf".toList⟩,
        spawn := fun _ _ _ =>
          .spawnErr ⟨.other, "Permission denied (os error 13)".toList⟩ }
      ⟨[⟨"Shell".toList, ".".toList, ["frobnicate".toList]⟩], 0, 7⟩
      ⟨"Shell".toList, ".".toList, ["frobnicate".toList]⟩
      "frobnicate".toList ".".toList [] ⟨.other, "Permission denied (os error 13)".toList⟩
      0 []
      (by decide) (by decide) (by decide) (by decide)).1⟩

/-- Splitting on commas always yields at least one field. -/
theorem splitComma_ne_nil (l : List Char) : splitComma l ≠ [] := by
  induction l with
  | nil => simp [splitComma]
  | cons c rest ih =>
    by_cases h : c = ','
    · simp [splitComma, h]
    · simp only [splitComma, if_neg h]
      cases hm : splitComma rest <;> simp

/-- No field produced by `splitComma` contains a comma. -/
theorem mem_splitComma_no_comma (l : List Char) : ∀ p ∈ splitComma l, ',' ∉ p := by
  induction l with
  | nil =>
    intro p hp
    simp [splitComma] at hp
    simp [hp]
  | cons c rest ih =>
    intro p hp
    by_cases h : c = ','
    · simp only [splitComma, if_pos h] at hp
      rcases List.mem_cons.mp hp with h1 | h1
      · simp [h1]
      · exact ih p h1
    · simp only [splitComma, if_neg h] at hp
      rcases hm : splitComma rest with _ | ⟨q, qs⟩
      · exact absurd hm (splitComma_ne_nil rest)
      · rw [hm] at hp
        rcases List.mem_cons.mp hp with h1 | h1
        · rw [h1]
          intro hmem
          rcases List.mem_cons.mp hmem with h2 | h2
          · exact h h2.symm
          · exact ih q (by rw [hm]; exact List.mem_cons_self q qs) h2
        · exact ih p (by rw [hm]; exact List.mem_cons_of_mem q h1)

/-- A comma-free string is a single field. -/
theorem splitComma_single (p : List Char) (hp : ',' ∉ p) : splitComma p = [p] := by
  induction p with
  | nil => rfl
  | cons c q ih =>
    have hc : ¬ c = ',' := fun h => hp (by simp [h])
    have hq : ',' ∉ q := fun h => hp (List.mem_cons_of_mem _ h)
    simp only [splitComma, if_neg hc, ih hq]

/-- Splitting a comma-free field, a comma, and a tail splits as the field
followed by the split of the tail. -/
theorem splitComma_append (p t : List Char) (hp : ',' ∉ p) :
    splitComma (p ++ ',' :: t) = p :: splitComma t := by
  induction p with
  | nil => simp [splitComma]
  | cons c q ih =>
    have hc : ¬ c = ',' := fun h => hp (by simp [h])
    have hq : ',' ∉ q := fun h => hp (List.mem_cons_of_mem _ h)
    simp only [List.cons_append, splitComma, if_neg hc, List.append_eq, ih hq]

/-- Rejoining comma-free fields and splitting again is the identity. -/
theorem splitComma_joinComma : ∀ ps : List (List Char), ps ≠ [] →
    (∀ p ∈ ps, ',' ∉ p) → splitComma (joinComma ps) = ps := by
  intro ps
  induction ps with
  | nil => intro hne _; exact absurd rfl hne
  | cons p ps ih =>
    intro _ hnc
    rcases ps with _ | ⟨q, qs⟩
    · exact splitComma_single p (hnc p (by simp))
    · have h1 : joinComma (p :: q :: qs) = p ++ ',' :: joinComma (q :: qs) := rfl
      rw [h1, splitComma_append p _ (hnc p (by simp)),
        ih (by simp) (fun r hr => hnc r (List.mem_cons_of_mem p hr))]

/-- C9: a line that splits into more than three comma-separated fields
parses exactly as its truncation to the first three fields does — all text
after the third comma is discarded and can influence neither name, nor
working_dir, nor command. -/
theorem parse_uses_only_first_three_fields (line : List Char)
    (h : 3 < (splitComma line).length) :
    MenuItem.from_csv_line line
      = MenuItem.from_csv_line (joinComma ((splitComma line).take 3)) := by
  rcases hsp : splitComma line with _ | ⟨p0, _ | ⟨p1, _ | ⟨p2, rest⟩⟩⟩
  · rw [hsp] at h; simp at h
  · rw [hsp] at h; simp at h
  · rw [hsp] at h; simp at h
  have h0 : ',' ∉ p0 := mem_splitComma_no_comma line p0 (by rw [hsp]; simp)
  have h1 : ',' ∉ p1 := mem_splitComma_no_comma line p1 (by rw [hsp]; simp)
  have h2 : ',' ∉ p2 := mem_splitComma_no_comma line p2 (by rw [hsp]; simp)
  have hjoin : splitComma (joinComma [p0, p1, p2]) = [p0, p1, p2] := by
    refine splitComma_joinComma [p0, p1, p2] (by simp) ?_
    intro p hp
    simp only [List.mem_cons, List.not_mem_nil, or_false] at hp
    rcases hp with hp | hp | hp
    · rw [hp]; exact h0
    · rw [hp]; exact h1
    · rw [hp]; exact h2
  have htake3 : List.take 3 (p0 :: p1 :: p2 :: rest) = [p0, p1, p2] := rfl
  rw [htake3]
  simp only [MenuItem.from_csv_line, hsp, hjoin]

/-- Witness for the extra-field theorem at a concrete five-field line. -/
theorem parse_uses_only_first_three_fields_witness :
    3 < (splitComma "Edit,.,vim x,extra,junk".toList).length ∧
    MenuItem.from_csv_line "Edit,.,vim x,extra,junk".toList
      = MenuItem.from_csv_line
          (joinComma ((splitComma "Edit,.,vim x,extra,junk".toList).take 3)) :=
  ⟨by decide, parse_uses_only_first_three_fields _ (by decide)⟩

/-- Folding the load step accumulates exactly the parsed items, in order,
and never touches the selection. -/
theorem foldl_load_step (lines : List (List Char)) : ∀ acc : Menu,
    (lines.foldl load_step acc).items = acc.items ++ lines.filterMap MenuItem.from_csv_line ∧
    (lines.foldl load_step acc).selected = acc.selected := by
  induction lines with
  | nil => intro acc; simp
  | cons l ls ih =>
    intro acc
    rcases hp : MenuItem.from_csv_line l with _ | item
    · have hstep : load_step acc l = acc := by simp [load_step, hp]
      simp only [List.foldl_cons, List.filterMap_cons, hp, hstep]
      exact ih acc
    · have hstep : load_step acc l
          = { acc with
              max_length := max acc.max_length (item.name.length + 2),
              items := acc.items ++ [item] } := by simp [load_step, hp]
      simp only [List.foldl_cons, List.filterMap_cons, hp, hstep]
      obtain ⟨h1, h2⟩ := ih { acc with
        max_length := max acc.max_length (item.name.length + 2),
        items := acc.items ++ [item] }
      refine ⟨?_, h2⟩
      rw [h1]
      simp

/-- The number of parsed items equals the number of well-formed lines. -/
theorem length_filterMap_parse (ls : List (List Char)) :
    (ls.filterMap MenuItem.from_csv_line).length
      = (ls.filter fun l => (MenuItem.from_csv_line l).isSome).length := by
  induction ls with
  | nil => rfl
  | cons l ls ih =>
    rcases hp : MenuItem.from_csv_line l with _ | item <;>
      simp [List.filterMap_cons, List.filter_cons, hp, ih]

/-- C5: loading any list of entry-file lines yields exactly the well-formed
records, in file order (the items are the filterMap of the parser over the
lines, so the N parseable lines survive and the M malformed ones are
skipped), no error is raised (the fold is total), and the resulting model
has selected_index 0. -/
theorem load_skips_malformed_keeps_order (lines : List (List Char)) :
    (Menu.load_from_lines lines).items = lines.filterMap MenuItem.from_csv_line ∧
    (Menu.load_from_lines lines).items.length
      = (lines.filter fun l => (MenuItem.from_csv_line l).isSome).length ∧
    (Menu.load_from_lines lines).selected = 0 := by
  obtain ⟨h1, h2⟩ := foldl_load_step lines Menu.new
  have h1n : (Menu.load_from_lines lines).items = lines.filterMap MenuItem.from_csv_line := by
    rw [Menu.load_from_lines, h1]
    rfl
  exact ⟨h1n, by rw [h1n]; exact length_filterMap_parse lines, h2⟩

/-- C6: the parser returns nothing for a line with fewer than three
comma-separated fields; given at least three fields it returns a descriptor
with empty command when the trimmed third field is empty (submenu marker),
and otherwise the shlex tokenization of the trimmed third field, returning
nothing exactly when tokenization fails. -/
theorem parse_field_semantics (line : List Char) :
    ((splitComma line).length < 3 → MenuItem.from_csv_line line = none) ∧
    (∀ p0 p1 p2 rest, splitComma line = p0 :: p1 :: p2 :: rest →
      ((rustTrim p2 = [] → MenuItem.from_csv_line line = some ⟨p0, p1, []⟩) ∧
       (rustTrim p2 ≠ [] →
         MenuItem.from_csv_line line
           = (shlexSplit (rustTrim p2)).map fun cmd => ⟨p0, p1, cmd⟩) ∧
       (rustTrim p2 ≠ [] → shlexSplit (rustTrim p2) = none →
         MenuItem.from_csv_line line = none))) := by
  constructor
  · intro h
    rcases hsp : splitComma line with _ | ⟨p0, _ | ⟨p1, _ | ⟨p2, rest⟩⟩⟩
    · simp [MenuItem.from_csv_line, hsp]
    · simp [MenuItem.from_csv_line, hsp]
    · simp [MenuItem.from_csv_line, hsp]
    · rw [hsp] at h
      simp at h
      omega
  · intro p0 p1 p2 rest hsp
    refine ⟨?_, ?_, ?_⟩
    · intro ht
      simp [MenuItem.from_csv_line, hsp, ht]
    · intro ht
      simp [MenuItem.from_csv_line, hsp, ht]
    · intro ht hn
      simp [MenuItem.from_csv_line, hsp, ht, hn]

/-- Witness for the parser case theorem: a malformed two-field line parses
to nothing, and a concrete submenu line parses to an empty command. -/
theorem parse_field_semantics_witness :
    MenuItem.from_csv_line "Bad,only-two-fields".toList = none ∧
    MenuItem.from_csv_line "Nested,./sub,".toList
      = some ⟨"Nested".toList, "./sub".toList, []⟩ :=
  ⟨(parse_field_semantics "Bad,only-two-fields".toList).1 (by decide),
   ((parse_field_semantics "Nested,./sub,".toList).2
      "Nested".toList "./sub".toList [] [] (by decide)).1 (by decide)⟩

/-- C8 counterexample: the parser accepts a line whose first field is
empty and produces a descriptor whose name is the empty string, refuting
the claim that every produced descriptor has a non-empty name. -/
theorem parse_accepts_empty_name :
    MenuItem.from_csv_line ",.,x".toList = some ⟨[], ".".toList, ["x".toList]⟩ ∧
    (MenuItem.mk [] ".".toList ["x".toList]).name.length = 0 := by
  constructor
  · decide
  · rfl

/-- C8 corrected: the name of every descriptor the parser produces is
exactly the first comma-separated field of the line, verbatim — which may
be empty; no non-emptiness is enforced. -/
theorem parse_name_is_first_field (line : List Char) (d : MenuItem)
    (h : MenuItem.from_csv_line line = some d) :
    ∃ p1 p2 rest, splitComma line = d.name :: p1 :: p2 :: rest := by
  rcases hsp : splitComma line with _ | ⟨p0, _ | ⟨p1, _ | ⟨p2, rest⟩⟩⟩ <;>
    rw [MenuItem.from_csv_line, hsp] at h
  · exact absurd h (by simp)
  · exact absurd h (by simp)
  · exact absurd h (by simp)
  · refine ⟨p1, p2, rest, ?_⟩
    have h2 : (if rustTrim p2 = [] then some (⟨p0, p1, []⟩ : MenuItem)
        else (shlexSplit (rustTrim p2)).map fun cmd => ⟨p0, p1, cmd⟩) = some d := h
    by_cases ht : rustTrim p2 = []
    · rw [if_pos ht] at h2
      injection h2 with hd
      rw [← hd]
    · rw [if_neg ht] at h2
      rcases Option.map_eq_some'.mp h2 with ⟨cmd, _, hd⟩
      rw [← hd]

/-- Witness for the first-field theorem at a concrete accepted line. -/
theorem parse_name_is_first_field_witness :
    MenuItem.from_csv_line "Shell,.,bash".toList
      = some ⟨"Shell".toList, ".".toList, ["bash".toList]⟩ ∧
    ∃ p1 p2 rest, splitComma "Shell,.,bash".toList
      = (MenuItem.mk "Shell".toList ".".toList ["bash".toList]).name :: p1 :: p2 :: rest :=
  ⟨by decide,
   parse_name_is_first_field "Shell,.,bash".toList
     ⟨"Shell".toList, ".".toList, ["bash".toList]⟩ (by decide)⟩

/-- Wrapping usize subtraction agrees with truncated subtraction when no
underflow occurs. -/
theorem usize_sub_eq_sub (a b : Nat) (hba : b ≤ a) (ha : a < USIZE) :
    usize_sub a b = a - b := by
  have hb : b % USIZE = b := Nat.mod_eq_of_lt (lt_of_le_of_lt hba ha)
  rw [usize_sub, hb]
  have hbu : b ≤ USIZE := le_of_lt (lt_of_le_of_lt hba ha)
  have heq : a + (USIZE - b) = (a - b) + USIZE := by omega
  rw [heq, Nat.add_mod_right]
  exact Nat.mod_eq_of_lt (by omega)

/-- C4: for a menu with a non-empty item list (of realistic usize size) and
an in-range selection, Up decrements selected only when it is positive and
Down increments it only when it is below len - 1, both are no-ops at their
boundary (no wraparound), the item list is untouched, and the selection
stays within bounds. -/
theorem navigation_no_wraparound (m : Menu) (hne : m.items ≠ [])
    (hlen : m.items.length < USIZE) (hsel : m.selected < m.items.length) :
    (m.selected = 0 → m.move_up = m) ∧
    (0 < m.selected → (m.move_up).selected = m.selected - 1) ∧
    (m.selected = m.items.length - 1 → m.move_down = m) ∧
    (m.selected < m.items.length - 1 → (m.move_down).selected = m.selected + 1) ∧
    (m.move_up).selected < m.items.length ∧
    (m.move_down).selected < m.items.length ∧
    (m.move_up).items = m.items ∧ (m.move_down).items = m.items := by
  have hpos : 0 < m.items.length := List.length_pos.mpr hne
  have hsub : usize_sub m.items.length 1 = m.items.length - 1 :=
    usize_sub_eq_sub _ _ (by omega) hlen
  unfold Menu.move_up Menu.move_down
  rw [hsub]
  refine ⟨?_, ?_, ?_, ?_, ?_, ?_, ?_, ?_⟩
  · intro h0
    rw [h0]
    simp
  · intro hp
    simp [hp]
  · intro he
    rw [he]
    simp
  · intro hlt
    simp [hlt]
  · split_ifs with hif
    · exact lt_of_le_of_lt (Nat.sub_le _ _) hsel
    · exact hsel
  · split_ifs with hif
    · exact (by omega : m.selected + 1 < m.items.length)
    · exact hsel
  · split_ifs <;> rfl
  · split_ifs <;> rfl

/-- Witness for the navigation theorem at a concrete two-item menu with
the second item selected: Down is a no-op at the boundary and Up moves to
index 0. -/
theorem navigation_no_wraparound_witness :
    (Menu.mk [⟨"A".toList, ".".toList, []⟩, ⟨"B".toList, ".".toList, []⟩] 1 3).items ≠ [] ∧
    (Menu.mk [⟨"A".toList, ".".toList, []⟩, ⟨"B".toList, ".".toList, []⟩] 1 3).items.length
      < USIZE ∧
    (Menu.mk [⟨"A".toList, ".".toList, []⟩, ⟨"B".toList, ".".toList, []⟩] 1 3).selected
      < (Menu.mk [⟨"A".toList, ".".toList, []⟩, ⟨"B".toList, ".".toList, []⟩] 1 3).items.length ∧
    ((Menu.mk [⟨"A".toList, ".".toList, []⟩, ⟨"B".toList, ".".toList, []⟩] 1 3).selected
        = (Menu.mk [⟨"A".toList, ".".toList, []⟩, ⟨"B".toList, ".".toList, []⟩] 1 3).items.length - 1 →
      (Menu.mk [⟨"A".toList, ".".toList, []⟩, ⟨"B".toList, ".".toList, []⟩] 1 3).move_down
        = Menu.mk [⟨"A".toList, ".".toList, []⟩, ⟨"B".toList, ".".toList, []⟩] 1 3) ∧
    ((Menu.mk [⟨"A".toList, ".".toList, []⟩, ⟨"B".toList, ".".toList, []⟩] 1 3).move_up).selected
      < (Menu.mk [⟨"A".toList, ".".toList, []⟩, ⟨"B".toList, ".".toList, []⟩] 1 3).items.length :=
  ⟨by decide, by decide, by decide,
   (navigation_no_wraparound _ (by decide) (by decide) (by decide)).2.2.1,
   (navigation_no_wraparound _ (by decide) (by decide) (by decide)).2.2.2.2.1⟩

/-- C7 counterexample: a path that starts with a tilde but is neither
exactly the tilde nor tilde-slash is NOT returned unchanged: the code
expands it against the home directory after discarding its first two
characters. -/
theorem tilde_prefix_not_literal :
    expand_tilde (some "/home/user".toList) "~abc".toList = .ok "/home/user/bc".toList ∧
    expand_tilde (some "/home/user".toList) "~abc".toList ≠ .ok "~abc".toList := by
  constructor
  · decide
  · decide

/-- C7 corrected: expand_tilde treats EVERY path whose first character is a
tilde as subject to expansion — exactly the tilde becomes the home
directory, and any other tilde-initial path (including forms like a tilde
followed directly by letters) becomes home joined with the path minus its
first two characters; a missing home directory yields NotFound only in the
tilde case; every path not starting with a tilde is returned unchanged. -/
theorem expand_tilde_characterization (home : Option (List Char)) (path : List Char) :
    (path.head? ≠ some '~' → expand_tilde home path = .ok path) ∧
    (path.head? = some '~' → home = none →
      expand_tilde home path
        = .error ⟨.notFound, "Could not determine home directory".toList⟩) ∧
    (∀ h, home = some h → path = ['~'] → expand_tilde home path = .ok h) ∧
    (∀ h, home = some h → path.head? = some '~' → path ≠ ['~'] →
      expand_tilde home path = .ok (pathJoin h (path.drop 2))) := by
  refine ⟨?_, ?_, ?_, ?_⟩
  · intro hne
    simp [expand_tilde, hne]
  · intro hh hn
    subst hn
    simp [expand_tilde, hh]
  · intro h hh hp
    subst hh
    subst hp
    simp [expand_tilde]
  · intro h hh hhead hne
    subst hh
    simp [expand_tilde, hhead, hne]

/-- Witness for the expand_tilde characterization: a plain relative path is
returned unchanged, and a tilde-slash path is joined onto home. -/
theorem expand_tilde_characterization_witness :
    ("./x".toList.head? ≠ some '~') ∧
    expand_tilde (some "/home/u".toList) "./x".toList = .ok "./x".toList ∧
    expand_tilde (some "/home/u".toList) "~/d".toList
      = .ok (pathJoin "/home/u".toList ("~/d".toList.drop 2)) :=
  ⟨by decide,
   (expand_tilde_characterization (some "/home/u".toList) "./x".toList).1 (by decide),
   (expand_tilde_characterization (some "/home/u".toList) "~/d".toList).2.2.2
     "/home/u".toList rfl (by decide) (by decide)⟩

/-- C10: a menu loaded from a file with no well-formed records has zero
items and max_length 0; the Down-key guard computes len - 1 on wrapping
usize arithmetic, which underflows to the maximum usize value, so Down
moves the selection to 1 — out of bounds for the empty item list — and the
border computation max_length - 2 of draw likewise underflows to
USIZE - 2 before any border is built; neither subtraction is guarded
against the empty menu. -/
theorem empty_menu_unguarded_underflow :
    (Menu.load_from_lines []).items.length = 0 ∧
    usize_sub (Menu.load_from_lines []).items.length 1 = USIZE - 1 ∧
    ((Menu.load_from_lines []).move_down).selected = 1 ∧
    ¬ ((Menu.load_from_lines []).move_down).selected
        < (Menu.load_from_lines []).items.length ∧
    (Menu.load_from_lines []).max_length = 0 ∧
    (Menu.load_from_lines []).top_border_dash_count = USIZE - 2 := by
  refine ⟨rfl, by decide, by decide, by decide, rfl, by decide⟩
